import Mathlib

/-!
# Verification of the ethers-rs client library excerpt

Shallow embedding of the repository's data model and operations:
* `src/ethers-core/src/utils/moonbeam.rs` — Moonbeam developer key table,
  embedded directly from the source.
* `src/ethers-signers/src/lib.rs` — the `Signer` trait surface.
* the middleware pipeline (signing middleware, nonce-coordinating
  middleware) and the pending-transaction tracking state machine, whose
  implementation files are not part of the excerpt; those are modelled
  from the specification, as marked on each definition.
-/

namespace EthersRs

/-! ## Moonbeam developer keys (`ethers-core/src/utils/moonbeam.rs`)

A `k256::SecretKey` is an external cryptographic type; the source only ever
builds one from a hex string and moves it around, so we embed a secret key
as the hex string it was decoded from. -/

/-- A secret key, represented by its hex encoding (the source decodes these
hex literals with `hex::decode` and `SecretKey::from_bytes`). -/
abbrev SecretKey := String

/-- Lexicographic order on lists of characters, compared by scalar value.
On ASCII strings (all the key names here) this agrees with Rust's
byte-wise `Ord for str`. -/
def charListLt : List Char → List Char → Bool
  | _, [] => false
  | [], _ :: _ => true
  | c :: cs, d :: ds =>
    if c.toNat < d.toNat then true
    else if d.toNat < c.toNat then false
    else charListLt cs ds

/-- Rust's `Ord for str` (lexicographic), on the strings' character data. -/
def strLt (a b : String) : Bool := charListLt a.data b.data

/-- One insertion step of a `BTreeMap` represented as an association list
sorted strictly ascending by key: insert `(k, v)`, overwriting an existing
binding for `k`. -/
def btreeInsert (k : String) (v : SecretKey) :
    List (String × SecretKey) → List (String × SecretKey)
  | [] => [(k, v)]
  | (k', v') :: rest =>
    if strLt k k' then (k, v) :: (k', v') :: rest
    else if k = k' then (k, v) :: rest
    else (k', v') :: btreeInsert k v rest

/-- `BTreeMap::from(entries)`: fold the entries into the sorted map. -/
def btreeFromList (l : List (String × SecretKey)) : List (String × SecretKey) :=
  l.foldl (fun m kv => btreeInsert kv.1 kv.2 m) []

/-- `MoonbeamDev`: holds private developer keys with their names, in a
`BTreeMap<&'static str, SecretKey>` (here: a key-sorted association list). -/
structure MoonbeamDev where
  keys : List (String × SecretKey)
  deriving Repr, DecidableEq

namespace MoonbeamDev

/-- `MoonbeamDev::get(name)`: `self.keys.get(name)`. -/
def get (d : MoonbeamDev) (name : String) : Option SecretKey :=
  match d.keys.find? (fun kv => kv.1 = name) with
  | some kv => some kv.2
  | none => none

/-- `MoonbeamDev::keys()`: `self.keys.values()` — the secret keys in
ascending order of their names. -/
def keysValues (d : MoonbeamDev) : List SecretKey :=
  d.keys.map Prod.snd

/-- `MoonbeamDev::into_keys()`: `self.keys.into_values()`. -/
def into_keys (d : MoonbeamDev) : List SecretKey :=
  d.keys.map Prod.snd

/-- `MoonbeamDev::alith()`: `self.get("Alith").unwrap()` — the `Option`
result models the `unwrap` (`none` is the panic). -/
def alith (d : MoonbeamDev) : Option SecretKey := d.get "Alith"

/-- `MoonbeamDev::baltathar()`: `self.get("Baltathar").unwrap()`. -/
def baltathar (d : MoonbeamDev) : Option SecretKey := d.get "Baltathar"

/-- `MoonbeamDev::charleth()`: `self.get("Charleth").unwrap()`. -/
def charleth (d : MoonbeamDev) : Option SecretKey := d.get "Charleth"

/-- `MoonbeamDev::ethan()`: `self.get("Ethan").unwrap()`. -/
def ethan (d : MoonbeamDev) : Option SecretKey := d.get "Ethan"

/-- `MoonbeamDev::default()`: the nine named developer keys, inserted into
the `BTreeMap` in source order. -/
def default : MoonbeamDev :=
  ⟨btreeFromList
    [("Alith", "5fb92d6e98884f76de468fa3f6278f8807c48bebc13595d45af5bdc4da702133"),
     ("Baltathar", "8075991ce870b93a8870eca0c0f91913d12f47948ca0fd25b49c6fa7cdbeee8b"),
     ("Charleth", "0b6e18cafb6ed99687ec547bd28139cafdd2bffe70e6b688025de6b445aa5c5b"),
     ("Dorothy", "39539ab1876910bbf3a223d84a29e28f1cb4e2e456503e7e91ed39b2e7223d68"),
     ("Faith", "b9d2ea9a615f3165812e8d44de0d24da9bbd164b65c4f0573e1ce2c8dbd9c8df"),
     ("Goliath", "96b8a38e12e1a31dee1eab2fffdf9d9990045f5b37e44d8cc27766ef294acf18"),
     ("Heath", "0d6dcaaef49272a5411896be8ad16c01c35d6f8c18873387b71fbc734759b0ab"),
     ("Ida", "4c42532034540267bf568198ccec4cb822a025da542861fcb146a5fab6433ff8"),
     ("Judith", "94c49300a58d576011096bcb006aa06f5a91b34b4383891e8029c21dc39fbb8b")]⟩

end MoonbeamDev

/-- `dev_keys()`: `MoonbeamDev::default().into_keys().collect()`. -/
def dev_keys : List SecretKey :=
  MoonbeamDev.default.into_keys

/-- The association list is sorted strictly ascending by key name. -/
def sortedByNameAsc : List (String × SecretKey) → Bool
  | [] => true
  | [_] => true
  | a :: b :: rest => strLt a.1 b.1 && sortedByNameAsc (b :: rest)

/-- C9: `ethan()` on the default `MoonbeamDev` always panics: the default
table holds exactly the entries Alith, Baltathar, Charleth, Dorothy, Faith,
Goliath, Heath, Ida and Judith — no "Ethan" — so `get("Ethan")` is `none`
and the `unwrap` inside `ethan()` fails, while `alith()`, `baltathar()` and
`charleth()` each return a key without panicking. -/
theorem ethan_always_panics :
    MoonbeamDev.default.ethan = none ∧
    (MoonbeamDev.default.alith).isSome = true ∧
    (MoonbeamDev.default.baltathar).isSome = true ∧
    (MoonbeamDev.default.charleth).isSome = true ∧
    MoonbeamDev.default.keys.map Prod.fst =
      ["Alith", "Baltathar", "Charleth", "Dorothy", "Faith",
       "Goliath", "Heath", "Ida", "Judith"] := by
  decide

/-- C10: `dev_keys()` is deterministic and returns exactly the 9 secret
keys, in ascending lexicographic order of their account names (the table is
an ordered map keyed by name); iterating `keys()` on the default
`MoonbeamDev` produces the same keys in the same order. -/
theorem dev_keys_ordered :
    dev_keys =
      ["5fb92d6e98884f76de468fa3f6278f8807c48bebc13595d45af5bdc4da702133",
       "8075991ce870b93a8870eca0c0f91913d12f47948ca0fd25b49c6fa7cdbeee8b",
       "0b6e18cafb6ed99687ec547bd28139cafdd2bffe70e6b688025de6b445aa5c5b",
       "39539ab1876910bbf3a223d84a29e28f1cb4e2e456503e7e91ed39b2e7223d68",
       "b9d2ea9a615f3165812e8d44de0d24da9bbd164b65c4f0573e1ce2c8dbd9c8df",
       "96b8a38e12e1a31dee1eab2fffdf9d9990045f5b37e44d8cc27766ef294acf18",
       "0d6dcaaef49272a5411896be8ad16c01c35d6f8c18873387b71fbc734759b0ab",
       "4c42532034540267bf568198ccec4cb822a025da542861fcb146a5fab6433ff8",
       "94c49300a58d576011096bcb006aa06f5a91b34b4383891e8029c21dc39fbb8b"] ∧
    dev_keys.length = 9 ∧
    sortedByNameAsc MoonbeamDev.default.keys = true ∧
    MoonbeamDev.default.keysValues = dev_keys := by
  decide

/-! ## Nonce-Coordinating Middleware (spec §4.2, §5, §8)

The nonce manager's implementation file (`nonce_manager.rs`, declared in
`src/ethers-signers/src/lib.rs`) is not part of the excerpt; it is modelled
from the specification. -/

/-- A network account identifier (fixed-width in the source; a `Nat` here —
only equality of addresses matters to the nonce table). -/
abbrev Address := Nat

/-- A transaction hash. -/
abbrev TxHash := Nat

/-- Look up the stored last-assigned-nonce entry for an address. -/
def lookupNonce : List (Address × Nat) → Address → Option Nat
  | [], _ => none
  | (a', n) :: rest, a => if a' = a then some n else lookupNonce rest a

/-- Store (create or overwrite) the nonce-table entry for an address. -/
def setNonce : List (Address × Nat) → Address → Nat → List (Address × Nat)
  | [], a, n => [(a, n)]
  | (a', n') :: rest, a, n =>
    if a' = a then (a, n) :: rest else (a', n') :: setNonce rest a n

/-- Modelled from the spec: the Nonce Table owned by one Nonce-Coordinating
Middleware instance — a mapping from `Address` to the last nonce value
assigned by this process (`nonce_manager.rs` is missing from the excerpt). -/
structure NonceManager where
  table : List (Address × Nat)
  deriving Repr, DecidableEq

/-- Modelled from the spec: one submission's nonce assignment — atomically
read-and-increment the stored value, returning the pre-increment value as
this transaction's nonce; on first use for an address, seed the entry from
the network's reported transaction count (`netCount`) and assign that. -/
def NonceManager.next_nonce (m : NonceManager) (a : Address) (netCount : Nat) :
    Nat × NonceManager :=
  match lookupNonce m.table a with
  | some n => (n, ⟨setNonce m.table a (n + 1)⟩)
  | none => (netCount, ⟨setNonce m.table a (netCount + 1)⟩)

/-- Modelled from the spec: concurrent submissions are cooperatively
scheduled tasks whose nonce assignments are single atomic steps, so a
scheduling interleaving of `N` one-assignment tasks is exactly an order in
which the scheduler serializes those `N` atomic read-and-increments. The
schedule lists the task ids in that order; the result pairs each task with
the nonce it was assigned. -/
def execSchedule (m : NonceManager) (a : Address) (netCount : Nat) :
    List Nat → List (Nat × Nat) × NonceManager
  | [] => ([], m)
  | t :: ts =>
    let step := m.next_nonce a netCount
    let rest := execSchedule step.2 a netCount ts
    ((t, step.1) :: rest.1, rest.2)

theorem lookupNonce_setNonce (t : List (Address × Nat)) (a : Address) (n : Nat) :
    lookupNonce (setNonce t a n) a = some n := by
  induction t with
  | nil => simp [setNonce, lookupNonce]
  | cons hd tl ih =>
    by_cases h : hd.1 = a
    · simp [setNonce, lookupNonce, h]
    · simp [setNonce, lookupNonce, h, ih]

theorem execSchedule_assigned (a : Address) (netCount : Nat) (ts : List Nat) :
    ∀ (m : NonceManager) (seed : Nat), lookupNonce m.table a = some seed →
      ((execSchedule m a netCount ts).1.map Prod.snd) =
        List.range' seed ts.length := by
  induction ts with
  | nil => intro m seed _; rfl
  | cons t ts ih =>
    intro m seed hseed
    have hstep : m.next_nonce a netCount = (seed, ⟨setNonce m.table a (seed + 1)⟩) := by
      simp [NonceManager.next_nonce, hseed]
    have hnext : lookupNonce (setNonce m.table a (seed + 1)) a = some (seed + 1) :=
      lookupNonce_setNonce m.table a (seed + 1)
    simp only [execSchedule, hstep, List.map_cons, List.length_cons]
    rw [ih ⟨setNonce m.table a (seed + 1)⟩ (seed + 1) hnext, List.range'_succ]

/-- C1: if the nonce-table entry for an address is seeded with `seed`, then
for every scheduling interleaving of `N` concurrent one-submission tasks,
the `N` assigned nonces (each obtained by an atomic read-and-increment
returning the pre-increment value) are exactly `seed, seed+1, …, seed+N−1`
— no duplicates, no gaps. -/
theorem nonce_uniqueness (m : NonceManager) (a : Address) (seed N netCount : Nat)
    (sched : List Nat) (hseed : lookupNonce m.table a = some seed)
    (hlen : sched.length = N) :
    ((execSchedule m a netCount sched).1.map Prod.snd) = List.range' seed N ∧
    (List.range' seed N).Nodup := by
  constructor
  · rw [execSchedule_assigned a netCount sched m seed hseed, hlen]
  · exact List.nodup_range' seed N

/-- Witness for C1: seed 5, three tasks scheduled as `[0, 1, 2]` —
assigned nonces are exactly `[5, 6, 7]`. -/
theorem nonce_uniqueness_witness :
    ((execSchedule ⟨[(1, 5)]⟩ 1 0 [0, 1, 2]).1.map Prod.snd) = List.range' 5 3 ∧
    (List.range' 5 3).Nodup :=
  nonce_uniqueness ⟨[(1, 5)]⟩ 1 5 3 0 [0, 1, 2] (by decide) (by decide)

/-- A transport error from the network client. -/
inductive TransportError where
  | connectionFailed
  deriving Repr, DecidableEq

/-- Modelled from the spec: one submission through the Nonce-Coordinating
Middleware — allocate the nonce by atomic read-and-increment, then attempt
the underlying transmission to the network; the transmission's outcome does
not alter the already-updated table (no rollback path exists). -/
def sendWithNonce (m : NonceManager) (a : Address) (netCount : Nat)
    (transmit : Nat → Except TransportError TxHash) :
    Except TransportError TxHash × NonceManager :=
  let step := m.next_nonce a netCount
  (transmit step.1, step.2)

/-- C6: if the underlying transmission fails after the nonce was allocated,
the allocated nonce is not returned to the pool: the stored entry for the
address remains incremented, and the next assignment from this instance
returns the successor — the failed nonce is never reassigned (a gap may
occur instead). -/
theorem nonce_not_returned_on_failure (m : NonceManager) (a : Address)
    (netCount n : Nat) (transmit : Nat → Except TransportError TxHash)
    (e : TransportError) (hn : lookupNonce m.table a = some n)
    (hfail : transmit n = .error e) :
    (sendWithNonce m a netCount transmit).1 = .error e ∧
    lookupNonce (sendWithNonce m a netCount transmit).2.table a = some (n + 1) ∧
    ((sendWithNonce m a netCount transmit).2.next_nonce a netCount).1 = n + 1 := by
  have hstep : m.next_nonce a netCount = (n, ⟨setNonce m.table a (n + 1)⟩) := by
    simp [NonceManager.next_nonce, hn]
  have hset : lookupNonce (setNonce m.table a (n + 1)) a = some (n + 1) :=
    lookupNonce_setNonce m.table a (n + 1)
  refine ⟨?_, ?_, ?_⟩
  · simp [sendWithNonce, hstep, hfail]
  · simp [sendWithNonce, hstep, hset]
  · simp [sendWithNonce, NonceManager.next_nonce, hn, hset]

/-- Witness for C6: entry seeded at 7, transmission always fails — the
error surfaces, the table entry moves to 8, and the next assignment is 8. -/
theorem nonce_not_returned_on_failure_witness :
    (sendWithNonce ⟨[(1, 7)]⟩ 1 0 (fun _ => .error .connectionFailed)).1 =
      .error .connectionFailed ∧
    lookupNonce (sendWithNonce ⟨[(1, 7)]⟩ 1 0
      (fun _ => .error .connectionFailed)).2.table 1 = some 8 ∧
    ((sendWithNonce ⟨[(1, 7)]⟩ 1 0
      (fun _ => .error .connectionFailed)).2.next_nonce 1 0).1 = 8 :=
  nonce_not_returned_on_failure ⟨[(1, 7)]⟩ 1 0 7
    (fun _ => .error .connectionFailed) .connectionFailed (by decide) rfl

/-! ## Pending-transaction tracking (spec §4.3, §6, §8)

The `PendingTransaction` implementation lives in `ethers-providers`, which
is not part of the excerpt (only its caller `tests/signer.rs` is); the
state machine is modelled from the specification. -/

/-- A transaction receipt: hash, inclusion block number, execution status
(logs omitted — no claim mentions them). -/
structure Receipt where
  transaction_hash : TxHash
  block_number : Nat
  status : Nat
  deriving Repr, DecidableEq

/-- Modelled from the spec: the progress states of the pending-transaction
tracking state machine (§4.3). -/
inductive TxState where
  | Submitted
  | Seen (inclusion : Nat)
  | Confirmed (r : Receipt)
  | Dropped
  deriving Repr, DecidableEq

/-- A terminal state no longer polls. -/
def TxState.isTerminal : TxState → Bool
  | .Confirmed _ => true
  | .Dropped => true
  | _ => false

/-- Modelled from the spec: a Pending Transaction handle — transaction
hash, requested confirmation target, remaining "not yet seen" retry
budget, and the internal progress state. -/
structure PendingTx where
  tx_hash : TxHash
  confirmation_target : Nat
  retriesLeft : Nat
  state : TxState
  deriving Repr, DecidableEq

/-- What one polling tick observes from the network: the receipt returned
by `get_transaction_receipt(hash)` and the current head height returned by
`get_block_number()`. -/
structure Observation where
  receipt : Option Receipt
  head : Nat
  deriving Repr, DecidableEq

/-- The confirmation count of a receipt included at `inclusion` when the
head is at `head`: current head height − inclusion height + 1. -/
def confirmationsOf (head inclusion : Nat) : Nat :=
  head - inclusion + 1

/-- Modelled from the spec: one polling tick (§4.3). In a non-terminal
state, query the receipt: if absent, remain Submitted (consuming one unit
of the bounded "not yet seen" retry budget; exhausting it is the Dropped
terminal state); if present, compute the confirmation count and transition
to Confirmed when the target is met, otherwise to Seen. -/
def pollStep (p : PendingTx) (o : Observation) : PendingTx :=
  match p.state with
  | .Confirmed _ => p
  | .Dropped => p
  | .Submitted =>
    match o.receipt with
    | none =>
      if p.retriesLeft = 0 then { p with state := .Dropped }
      else { p with retriesLeft := p.retriesLeft - 1 }
    | some r =>
      if p.confirmation_target ≤ confirmationsOf o.head r.block_number
      then { p with state := .Confirmed r }
      else { p with state := .Seen r.block_number }
  | .Seen _ =>
    match o.receipt with
    | none => p
    | some r =>
      if p.confirmation_target ≤ confirmationsOf o.head r.block_number
      then { p with state := .Confirmed r }
      else { p with state := .Seen r.block_number }

/-- The resolution of the awaited value, if the state is terminal:
`some (some r)` — resolved with the receipt; `some none` — resolved with
`None` (dropped/replaced); `none` — still pending. -/
def resolveOf : TxState → Option (Option Receipt)
  | .Confirmed r => some (some r)
  | .Dropped => some none
  | _ => none

/-- Run the polling loop over a finite trace of network observations,
stopping at the first terminal state. -/
def awaitRun (p : PendingTx) : List Observation → PendingTx
  | [] => p
  | o :: os => if p.state.isTerminal then p else awaitRun (pollStep p o) os

/-- Modelled from the spec: awaiting the value produced by
`confirmations(n)` over a trace of observations — `some res` when the wait
resolved within the trace (with `res : Option Receipt`), `none` when the
trace ended with the wait still pending. -/
def awaitConfirmations (p : PendingTx) (os : List Observation) :
    Option (Option Receipt) :=
  resolveOf (awaitRun p os).state

/-- C2: whenever the receipt is present at a polling tick (from Submitted
or from Seen), the tracker computes the confirmation count as
(current head height − inclusion height + 1) and moves to Confirmed exactly
when the requested target is met, otherwise to Seen at the inclusion
height. -/
theorem poll_confirms_exactly_at_target (p : PendingTx) (o : Observation)
    (r : Receipt) (hobs : o.receipt = some r)
    (hactive : p.state = .Submitted ∨ ∃ i, p.state = .Seen i) :
    (pollStep p o).state =
      if p.confirmation_target ≤ o.head - r.block_number + 1
      then .Confirmed r else .Seen r.block_number := by
  rcases hactive with h | ⟨i, h⟩ <;>
    · simp only [pollStep, h, hobs, confirmationsOf]
      split <;> rfl

/-- Witness for C2, the spec's scenario: target 2 confirmations, receipt at
block 100. While the head is 100 (1 confirmation) the tracker stays Seen;
when the head reaches 101 (2 confirmations) it resolves to Confirmed. -/
theorem poll_confirms_exactly_at_target_witness :
    (pollStep ⟨42, 2, 3, .Submitted⟩ ⟨some ⟨42, 100, 1⟩, 100⟩).state =
      .Seen 100 ∧
    (pollStep ⟨42, 2, 3, .Seen 100⟩ ⟨some ⟨42, 100, 1⟩, 101⟩).state =
      .Confirmed ⟨42, 100, 1⟩ := by
  constructor
  · rw [poll_confirms_exactly_at_target ⟨42, 2, 3, .Submitted⟩
      ⟨some ⟨42, 100, 1⟩, 100⟩ ⟨42, 100, 1⟩ rfl (Or.inl rfl)]
    decide
  · rw [poll_confirms_exactly_at_target ⟨42, 2, 3, .Seen 100⟩
      ⟨some ⟨42, 100, 1⟩, 101⟩ ⟨42, 100, 1⟩ rfl (Or.inr ⟨100, rfl⟩)]
    decide

/-- In a `Confirmed` state, the receipt carried belongs to this handle's
transaction hash (vacuous in every other state). -/
def stateHashOk (h : TxHash) : TxState → Prop
  | .Confirmed r => r.transaction_hash = h
  | _ => True

theorem pollStep_tx_hash (p : PendingTx) (o : Observation) :
    (pollStep p o).tx_hash = p.tx_hash := by
  simp only [pollStep]
  split <;> (try split) <;> (try split) <;> rfl

theorem pollStep_target (p : PendingTx) (o : Observation) :
    (pollStep p o).confirmation_target = p.confirmation_target := by
  simp only [pollStep]
  split <;> (try split) <;> (try split) <;> rfl

theorem pollStep_hashOk (p : PendingTx) (o : Observation)
    (hp : stateHashOk p.tx_hash p.state)
    (ho : ∀ r, o.receipt = some r → r.transaction_hash = p.tx_hash) :
    stateHashOk p.tx_hash (pollStep p o).state := by
  rcases hst : p.state with _ | i | r | _
  · rcases hrec : o.receipt with _ | r'
    · simp only [pollStep, hst, hrec]
      split <;> simp [stateHashOk, hst]
    · have hr := ho r' hrec
      simp only [pollStep, hst, hrec]
      split <;> simp [stateHashOk, hr]
  · rcases hrec : o.receipt with _ | r'
    · simp only [pollStep, hst, hrec]
      simp [stateHashOk, hst]
    · have hr := ho r' hrec
      simp only [pollStep, hst, hrec]
      split <;> simp [stateHashOk, hr]
  · simp only [pollStep, hst]
    rw [hst] at hp
    exact hp
  · simp only [pollStep, hst]
    rw [hst] at hp
    exact hp

theorem awaitRun_tx_hash (os : List Observation) :
    ∀ p : PendingTx, (awaitRun p os).tx_hash = p.tx_hash := by
  induction os with
  | nil => intro p; rfl
  | cons o os ih =>
    intro p
    simp only [awaitRun]
    split
    · rfl
    · rw [ih (pollStep p o), pollStep_tx_hash]

theorem awaitRun_hashOk (os : List Observation) :
    ∀ p : PendingTx, stateHashOk p.tx_hash p.state →
      (∀ o ∈ os, ∀ r, o.receipt = some r → r.transaction_hash = p.tx_hash) →
      stateHashOk p.tx_hash (awaitRun p os).state := by
  induction os with
  | nil => intro p hp _; exact hp
  | cons o os ih =>
    intro p hp ho
    simp only [awaitRun]
    split
    · exact hp
    · have step := pollStep_hashOk p o hp (ho o (by simp))
      have hrw : (pollStep p o).tx_hash = p.tx_hash := pollStep_tx_hash p o
      have := ih (pollStep p o) (by rw [hrw]; exact step)
        (by intro o' ho' r hr; rw [hrw]; exact ho o' (by simp [ho']) r hr)
      rwa [hrw] at this

/-- C3: awaiting the value produced by `confirmations(n)` resolves to an
`Option Receipt`: when it resolves to `some r`, the run reached the
Confirmed terminal state and `r` carries this transaction's hash; when it
resolves to `none`, the transaction was dropped/replaced before reaching
the target (the Dropped terminal state). The hypothesis on the trace is
the network-client contract that `get_transaction_receipt(hash)` returns
receipts for the queried hash. -/
theorem confirmations_resolves_option_receipt (p : PendingTx)
    (os : List Observation) (res : Option Receipt)
    (hstart : p.state = .Submitted)
    (hnet : ∀ o ∈ os, ∀ r, o.receipt = some r → r.transaction_hash = p.tx_hash)
    (hres : awaitConfirmations p os = some res) :
    (∀ r, res = some r →
      r.transaction_hash = p.tx_hash ∧ (awaitRun p os).state = .Confirmed r) ∧
    (res = none → (awaitRun p os).state = .Dropped) := by
  have hok : stateHashOk p.tx_hash (awaitRun p os).state :=
    awaitRun_hashOk os p (by rw [hstart]; trivial) hnet
  rcases hfin : (awaitRun p os).state with _ | i | r | _
  · rw [awaitConfirmations, hfin] at hres; exact absurd hres (by simp [resolveOf])
  · rw [awaitConfirmations, hfin] at hres; exact absurd hres (by simp [resolveOf])
  · rw [awaitConfirmations, hfin] at hres
    simp only [resolveOf, Option.some.injEq] at hres
    subst hres
    rw [hfin] at hok
    refine ⟨?_, by intro h; cases h⟩
    intro r' hr'
    cases hr'
    exact ⟨hok, rfl⟩
  · rw [awaitConfirmations, hfin] at hres
    simp only [resolveOf, Option.some.injEq] at hres
    subst hres
    refine ⟨?_, fun _ => rfl⟩
    intro r hr
    cases hr

/-- Witness for C3: target 1 confirmation; first poll sees no receipt,
second sees the receipt for hash 42 at block 100 with head 100 — the await
resolves to `some` of that receipt, whose hash is the handle's hash 42. -/
theorem confirmations_resolves_option_receipt_witness :
    (⟨42, 100, 1⟩ : Receipt).transaction_hash =
        (⟨42, 1, 3, .Submitted⟩ : PendingTx).tx_hash ∧
      (awaitRun ⟨42, 1, 3, .Submitted⟩
        [⟨none, 99⟩, ⟨some ⟨42, 100, 1⟩, 100⟩]).state = .Confirmed ⟨42, 100, 1⟩ :=
  (confirmations_resolves_option_receipt ⟨42, 1, 3, .Submitted⟩
    [⟨none, 99⟩, ⟨some ⟨42, 100, 1⟩, 100⟩] (some ⟨42, 100, 1⟩) rfl
    (by
      intro o ho r hr
      rcases List.mem_cons.mp ho with h | h
      · subst h; cases hr
      · rcases List.mem_cons.mp h with h2 | h2
        · subst h2; cases hr; rfl
        · exact absurd h2 (List.not_mem_nil o))
    (by decide)).1 ⟨42, 100, 1⟩ rfl

/-! ## Signer abstraction (`ethers-signers/src/lib.rs`, spec §4.1)

The source declares the `Signer` trait (`sign_message`, `sign_transaction`,
`address`, all `async` and returning `Result<_, Self::Error>`); the wallet
implementation (`wallet.rs`) is not part of the excerpt and is modelled
from the specification. -/

/-- Errors of the Signer abstraction (spec §4.1, §7): a missing required
field is distinct from an unreachable backend. -/
inductive SignerError where
  | MissingField (field : String)
  | BackendUnavailable
  deriving Repr, DecidableEq

/-- Transaction Request (spec §3): a builder value with optional fields.
`TransactionRequest::new()` is the record of defaults. -/
structure TransactionRequest where
  txFrom : Option Address := none
  txTo : Option Address := none
  value : Option Nat := none
  data : Option (List Nat) := none
  nonce : Option Nat := none
  gas : Option Nat := none
  gas_price : Option Nat := none
  chain_id : Option Nat := none
  deriving Repr, DecidableEq

/-- Signed Transaction (spec §3): the request's fields frozen, plus the
signature (collapsed to one scalar — its internal triple structure is not
load-bearing for any claim). -/
structure Transaction where
  txFrom : Address
  txTo : Option Address
  value : Nat
  nonce : Nat
  chain_id : Nat
  sig : Nat
  deriving Repr, DecidableEq

/-- Modelled from the spec: address derivation from private key material is
a pure function (the real secp256k1 public-key derivation is external). -/
def deriveAddress (private_key : Nat) : Address :=
  private_key % 2 ^ 160

/-- Modelled from the spec: the software key-backed signer (`wallet.rs`,
missing from the excerpt) — it holds private key material. -/
structure Wallet where
  private_key : Nat
  deriving Repr, DecidableEq

/-- The wallet's address: a pure derivation from its private material. -/
def Wallet.address (w : Wallet) : Address :=
  deriveAddress w.private_key

/-- The exact byte-serialization of the unsigned chain-bound fields that
enter the signature context (spec §3: nonce, fee fields, recipient, value,
chain identifier). -/
def serializeRequest (tx : TransactionRequest) (cid : Nat) : List Nat :=
  [tx.nonce.getD 0, tx.gas_price.getD 0, tx.gas.getD 0,
   tx.txTo.getD 0, tx.value.getD 0, cid]

/-- Modelled from the spec: a deterministic signature — a function of the
serialized unsigned fields and the signer's private material (the real
ECDSA signing is external; any injective-enough pure combination serves
the claims, none of which inspect signature bytes). -/
def signPayload (private_key : Nat) (payload : List Nat) : Nat :=
  payload.foldl (fun acc b => acc * 1000003 + b) (private_key + 1)

/-- Modelled from the spec: `sign_transaction` validates that the fields
required for a deterministic, chain-bound signature are present — the spec
names the chain identifier (to prevent cross-network replay) — and fails
with a `MissingField` error otherwise; with all required fields present it
returns the signed, frozen transaction. -/
def Wallet.sign_transaction (w : Wallet) (tx : TransactionRequest) :
    Except SignerError Transaction :=
  match tx.chain_id with
  | none => .error (.MissingField "chain_id")
  | some cid =>
    .ok { txFrom := tx.txFrom.getD w.address, txTo := tx.txTo,
          value := tx.value.getD 0, nonce := tx.nonce.getD 0,
          chain_id := cid,
          sig := signPayload w.private_key (serializeRequest tx cid) }

/-- Modelled from the spec and the trait signature in the source: one call
to `address()` — declared `async` and fallible
(`Result<Address, Self::Error>`) in `src/ethers-signers/src/lib.rs` — as a
state-passing operation returning the call's result together with the
signer state after the call. -/
def Wallet.addressCall (w : Wallet) : Except SignerError Address × Wallet :=
  (.ok w.address, w)

/-- C4: a transaction request lacking the chain identifier — the field the
spec names as required for a deterministic, chain-bound signature — makes
`sign_transaction` fail with a `MissingField` error rather than produce a
signed transaction; with the required field present it returns a signed
transaction. -/
theorem sign_transaction_missing_field (w : Wallet) (tx : TransactionRequest) :
    (tx.chain_id = none →
      w.sign_transaction tx = .error (.MissingField "chain_id")) ∧
    (∀ cid, tx.chain_id = some cid →
      w.sign_transaction tx =
        .ok { txFrom := tx.txFrom.getD w.address, txTo := tx.txTo,
              value := tx.value.getD 0, nonce := tx.nonce.getD 0,
              chain_id := cid,
              sig := signPayload w.private_key (serializeRequest tx cid) }) := by
  constructor
  · intro h; simp [Wallet.sign_transaction, h]
  · intro cid h; simp [Wallet.sign_transaction, h]

/-- Witness for C4: a bare request is rejected with `MissingField`; the
same request with chain id 1 is signed. -/
theorem sign_transaction_missing_field_witness :
    Wallet.sign_transaction ⟨5⟩ {} = .error (.MissingField "chain_id") ∧
    Wallet.sign_transaction ⟨5⟩ { chain_id := some 1 } =
      .ok { txFrom := (⟨5⟩ : Wallet).address, txTo := none, value := 0,
            nonce := 0, chain_id := 1,
            sig := signPayload 5 (serializeRequest { chain_id := some 1 } 1) } :=
  ⟨(sign_transaction_missing_field ⟨5⟩ {}).1 rfl,
   (sign_transaction_missing_field ⟨5⟩ { chain_id := some 1 }).2 1 rfl⟩

/-- C8: `address()` is pure and side-effect-free: a call leaves the signer
state unchanged, succeeds with the derived address (the trait declares the
fallible `Result` shape), and a second call on the post-call state returns
the same `Address`. -/
theorem address_pure_and_repeatable (w : Wallet) :
    w.addressCall.2 = w ∧
    w.addressCall.1 = .ok w.address ∧
    (w.addressCall.2.addressCall).1 = w.addressCall.1 :=
  ⟨rfl, rfl, rfl⟩

/-! ## Middleware composition (spec §2, §4.4, §6)

The middleware implementations (`ethers-middleware`, `ethers-providers`)
are not part of the excerpt — only their test caller
`src/ethers-middleware/tests/signer.rs` is; they are modelled from the
specification. -/

/-- The capability surface every layer exposes (spec §6): a client is
modelled extensionally, by the responses it gives to each call. -/
structure Client where
  get_balance : Address → Nat
  get_transaction_count : Address → Nat
  get_chain_id : Nat
  get_block_number : Nat
  get_transaction_receipt : TxHash → Option Receipt
  send_transaction : TransactionRequest → TxHash

/-- Modelled from the spec: the Signing Middleware — wraps an inner layer
and a signer; intercepts transaction submission only. -/
structure SignerMiddleware where
  inner : Client
  signer : Wallet

/-- `get_balance` is not intercepted: forwarded unchanged. -/
def SignerMiddleware.get_balance (m : SignerMiddleware) (a : Address) : Nat :=
  m.inner.get_balance a

/-- `get_transaction_count` is not intercepted: forwarded unchanged. -/
def SignerMiddleware.get_transaction_count (m : SignerMiddleware)
    (a : Address) : Nat :=
  m.inner.get_transaction_count a

/-- `get_chain_id` is not intercepted: forwarded unchanged. -/
def SignerMiddleware.get_chain_id (m : SignerMiddleware) : Nat :=
  m.inner.get_chain_id

/-- `get_block_number` is not intercepted: forwarded unchanged. -/
def SignerMiddleware.get_block_number (m : SignerMiddleware) : Nat :=
  m.inner.get_block_number

/-- `get_transaction_receipt` is not intercepted: forwarded unchanged. -/
def SignerMiddleware.get_transaction_receipt (m : SignerMiddleware)
    (h : TxHash) : Option Receipt :=
  m.inner.get_transaction_receipt h

/-- Modelled from the spec: the Signing Middleware fills in the sender
address before signing — the signer's own address when the request carries
none, the request's address otherwise (behavior pinned by the test
`send_transaction_handles_tx_from_field`). -/
def SignerMiddleware.fill_from (m : SignerMiddleware)
    (tx : TransactionRequest) : TransactionRequest :=
  { tx with txFrom := some (tx.txFrom.getD m.signer.address) }

/-- Modelled from the spec: intercepted submission — fill in the sender,
sign, forward to the inner layer, and hand back a Pending Transaction
handle wrapping the hash the inner layer returned. -/
def SignerMiddleware.send_transaction (m : SignerMiddleware)
    (tx : TransactionRequest) (target retries : Nat) : PendingTx :=
  ⟨m.inner.send_transaction (m.fill_from tx), target, retries, .Submitted⟩

/-- Modelled from the spec: the Nonce-Coordinating Middleware — wraps an
inner layer and owns its Nonce Table; intercepts submission only. -/
structure NonceMiddleware where
  inner : Client
  manager : NonceManager

/-- `get_balance` is not intercepted: forwarded unchanged. -/
def NonceMiddleware.get_balance (m : NonceMiddleware) (a : Address) : Nat :=
  m.inner.get_balance a

/-- `get_transaction_count` is not intercepted: forwarded unchanged. -/
def NonceMiddleware.get_transaction_count (m : NonceMiddleware)
    (a : Address) : Nat :=
  m.inner.get_transaction_count a

/-- `get_chain_id` is not intercepted: forwarded unchanged. -/
def NonceMiddleware.get_chain_id (m : NonceMiddleware) : Nat :=
  m.inner.get_chain_id

/-- `get_block_number` is not intercepted: forwarded unchanged. -/
def NonceMiddleware.get_block_number (m : NonceMiddleware) : Nat :=
  m.inner.get_block_number

/-- `get_transaction_receipt` is not intercepted: forwarded unchanged. -/
def NonceMiddleware.get_transaction_receipt (m : NonceMiddleware)
    (h : TxHash) : Option Receipt :=
  m.inner.get_transaction_receipt h

/-- Modelled from the spec: intercepted submission — when the request has
no nonce, atomically assign the next per-account nonce (seeding from the
network's transaction count on first use) before forwarding; the result is
a Pending Transaction handle and the middleware with its updated table. -/
def NonceMiddleware.send_transaction (m : NonceMiddleware)
    (tx : TransactionRequest) (target retries : Nat) :
    PendingTx × NonceMiddleware :=
  match tx.nonce with
  | some _ => (⟨m.inner.send_transaction tx, target, retries, .Submitted⟩, m)
  | none =>
    let a := tx.txFrom.getD 0
    let step := m.manager.next_nonce a (m.inner.get_transaction_count a)
    (⟨m.inner.send_transaction { tx with nonce := some step.1 },
      target, retries, .Submitted⟩,
     ⟨m.inner, step.2⟩)

/-- A concrete network client for instantiating the theorems. -/
def testClient : Client where
  get_balance := fun _ => 100
  get_transaction_count := fun _ => 5
  get_chain_id := 1
  get_block_number := 7
  get_transaction_receipt := fun _ => none
  send_transaction := fun _ => 42

/-- C5: a request submitted through the Signing Middleware with no sender
is actually sent with the middleware's signer address as its sender; a
request that already carries a sender keeps that address. The submission
forwards exactly the filled request to the inner layer. -/
theorem signing_middleware_fills_sender (m : SignerMiddleware)
    (tx : TransactionRequest) (target retries : Nat) :
    (tx.txFrom = none → (m.fill_from tx).txFrom = some m.signer.address) ∧
    (∀ a, tx.txFrom = some a → (m.fill_from tx).txFrom = some a) ∧
    m.send_transaction tx target retries =
      ⟨m.inner.send_transaction (m.fill_from tx), target, retries,
       .Submitted⟩ := by
  refine ⟨?_, ?_, rfl⟩
  · intro h; simp [SignerMiddleware.fill_from, h]
  · intro a h; simp [SignerMiddleware.fill_from, h]

/-- Witness for C5: with signer key 5, a bare request is sent from the
signer's address; a request from address 77 keeps 77. -/
theorem signing_middleware_fills_sender_witness :
    (SignerMiddleware.fill_from ⟨testClient, ⟨5⟩⟩ {}).txFrom =
      some (Wallet.address ⟨5⟩) ∧
    (SignerMiddleware.fill_from ⟨testClient, ⟨5⟩⟩
      { txFrom := some 77 }).txFrom = some 77 :=
  ⟨(signing_middleware_fills_sender ⟨testClient, ⟨5⟩⟩ {} 0 0).1 rfl,
   (signing_middleware_fills_sender ⟨testClient, ⟨5⟩⟩
      { txFrom := some 77 } 0 0).2.1 77 rfl⟩

/-- C7: for each middleware layer (Signing, Nonce-Coordinating) and each
operation it does not intercept, invoking the operation forwards the call
to the inner layer and returns the inner layer's result unchanged; the sole
exception is submission, which returns a Pending Transaction handle
wrapping the hash rather than the raw hash. -/
theorem middleware_forwards_unintercepted (c : Client) (w : Wallet)
    (mgr : NonceManager) (a : Address) (h : TxHash)
    (tx : TransactionRequest) (target retries : Nat) :
    (SignerMiddleware.mk c w).get_balance a = c.get_balance a ∧
    (SignerMiddleware.mk c w).get_transaction_count a =
      c.get_transaction_count a ∧
    (SignerMiddleware.mk c w).get_chain_id = c.get_chain_id ∧
    (SignerMiddleware.mk c w).get_block_number = c.get_block_number ∧
    (SignerMiddleware.mk c w).get_transaction_receipt h =
      c.get_transaction_receipt h ∧
    (NonceMiddleware.mk c mgr).get_balance a = c.get_balance a ∧
    (NonceMiddleware.mk c mgr).get_transaction_count a =
      c.get_transaction_count a ∧
    (NonceMiddleware.mk c mgr).get_chain_id = c.get_chain_id ∧
    (NonceMiddleware.mk c mgr).get_block_number = c.get_block_number ∧
    (NonceMiddleware.mk c mgr).get_transaction_receipt h =
      c.get_transaction_receipt h ∧
    ((SignerMiddleware.mk c w).send_transaction tx target retries).tx_hash =
      c.send_transaction ((SignerMiddleware.mk c w).fill_from tx) :=
  ⟨rfl, rfl, rfl, rfl, rfl, rfl, rfl, rfl, rfl, rfl, rfl⟩

end EthersRs
